import Mathlib

/-!
Shallow embedding of the chess engine core (src/board.rs, src/movegen.rs,
src/search.rs, src/transposition.rs) and verification of the spec claims.

Bitboards (Rust u64) are modelled as Nat; all values stay below 2^64 because
every bit written is a single `1 <<< s` with s < 64, and complements are taken
with XOR against 2^64 - 1.  u8 / u16 counters wrap with explicit `% 256` /
`% 65536` where the Rust code can overflow.  Loops over squares become folds
over `List.range 64`; the bounded ray walks of the Rust `while` loops become
structural recursion on a fuel argument of 8 (a ray on an 8x8 board takes at
most 7 steps).
-/

set_option maxRecDepth 8192

namespace ChessEngine

/-- Piece kinds, from src/board.rs `enum Piece`. -/
inductive Piece where
  | pawn
  | knight
  | bishop
  | rook
  | queen
  | king
deriving DecidableEq

/-- Side colors, from src/board.rs `enum Color`. -/
inductive Color where
  | white
  | black
deriving DecidableEq

/-- `Color::opposite` from src/board.rs. -/
def Color.opposite : Color → Color
  | .white => .black
  | .black => .white

/-- One side's six piece bitboards, in the array order
`Pawn, Knight, Bishop, Rook, Queen, King` of `Board::white_pieces` /
`Board::black_pieces` in src/board.rs. -/
structure SidePieces where
  pawn : Nat
  knight : Nat
  bishop : Nat
  rook : Nat
  queen : Nat
  king : Nat
deriving DecidableEq

/-- The `pieces.iter()` order of the Rust array `[u64; 6]`. -/
def SidePieces.toList (ps : SidePieces) : List Nat :=
  [ps.pawn, ps.knight, ps.bishop, ps.rook, ps.queen, ps.king]

/-- Array indexing `pieces[i]` (indices 0..5 as in the Rust `match` tables). -/
def SidePieces.get (ps : SidePieces) : Nat → Nat
  | 0 => ps.pawn
  | 1 => ps.knight
  | 2 => ps.bishop
  | 3 => ps.rook
  | 4 => ps.queen
  | 5 => ps.king
  | _ => 0

/-- In-place update `pieces[i] = f(pieces[i])` of the Rust array. -/
def SidePieces.update (ps : SidePieces) (i : Nat) (f : Nat → Nat) : SidePieces :=
  match i with
  | 0 => { ps with pawn := f ps.pawn }
  | 1 => { ps with knight := f ps.knight }
  | 2 => { ps with bishop := f ps.bishop }
  | 3 => { ps with rook := f ps.rook }
  | 4 => { ps with queen := f ps.queen }
  | 5 => { ps with king := f ps.king }
  | _ => ps

/-- The `match` on piece kinds used throughout src/board.rs and src/movegen.rs
to turn a `Piece` into an array index. -/
def pieceIndex : Piece → Nat
  | .pawn => 0
  | .knight => 1
  | .bishop => 2
  | .rook => 3
  | .queen => 4
  | .king => 5

/-- Bitwise complement of a u64 (`!mask` in Rust). -/
def not64 (m : Nat) : Nat := Nat.xor m 0xFFFFFFFFFFFFFFFF

/-- Bitwise complement of a u8 (`!mask` on the castling-rights byte). -/
def not8 (m : Nat) : Nat := Nat.xor m 0xFF

/-- Game position, from src/board.rs `struct Board`. -/
structure Board where
  white_pieces : SidePieces
  black_pieces : SidePieces
  side_to_move : Color
  castling_rights : Nat
  en_passant_square : Option Nat
  halfmove_clock : Nat
  fullmove_number : Nat
deriving DecidableEq

/-- `Board::new()`: the standard initial position (src/board.rs). -/
def Board.new : Board where
  white_pieces :=
    { pawn := 0x000000000000FF00
      knight := 0x0000000000000042
      bishop := 0x0000000000000024
      rook := 0x0000000000000081
      queen := 0x0000000000000008
      king := 0x0000000000000010 }
  black_pieces :=
    { pawn := 0x00FF000000000000
      knight := 0x4200000000000000
      bishop := 0x2400000000000000
      rook := 0x8100000000000000
      queen := 0x0800000000000000
      king := 0x1000000000000000 }
  side_to_move := .white
  castling_rights := 0b1111
  en_passant_square := none
  halfmove_clock := 0
  fullmove_number := 1

/-- A move, from src/movegen.rs `struct Move`.  `from` is a Lean keyword, so
the `from`/`to` fields are named `fromSq`/`toSq`. -/
structure Move where
  fromSq : Nat
  toSq : Nat
  piece : Piece
  captured_piece : Option Piece
  promotion : Option Piece
  is_en_passant : Bool
  is_castling : Bool
  castling_rook_from : Option Nat
  castling_rook_to : Option Nat
deriving DecidableEq

/-- `Move::new` (src/movegen.rs). -/
def Move.new (fromSq toSq : Nat) (piece : Piece) : Move where
  fromSq := fromSq
  toSq := toSq
  piece := piece
  captured_piece := none
  promotion := none
  is_en_passant := false
  is_castling := false
  castling_rook_from := none
  castling_rook_to := none

/-- `Move::new_en_passant` (src/movegen.rs). -/
def Move.new_en_passant (fromSq toSq : Nat) (piece : Piece) : Move where
  fromSq := fromSq
  toSq := toSq
  piece := piece
  captured_piece := some .pawn
  promotion := none
  is_en_passant := true
  is_castling := false
  castling_rook_from := none
  castling_rook_to := none

/-- `Move::new_castling` (src/movegen.rs). -/
def Move.new_castling (fromSq toSq rook_from rook_to : Nat) : Move where
  fromSq := fromSq
  toSq := toSq
  piece := .king
  captured_piece := none
  promotion := none
  is_en_passant := false
  is_castling := true
  castling_rook_from := some rook_from
  castling_rook_to := some rook_to

/-- `Move::new_promotion` (src/movegen.rs). -/
def Move.new_promotion (fromSq toSq : Nat) (promotion : Piece) : Move where
  fromSq := fromSq
  toSq := toSq
  piece := .pawn
  captured_piece := none
  promotion := some promotion
  is_en_passant := false
  is_castling := false
  castling_rook_from := none
  castling_rook_to := none

/-- `Move::new_promotion_capture` (src/movegen.rs). -/
def Move.new_promotion_capture (fromSq toSq : Nat) (captured_piece promotion : Piece) : Move where
  fromSq := fromSq
  toSq := toSq
  piece := .pawn
  captured_piece := some captured_piece
  promotion := some promotion
  is_en_passant := false
  is_castling := false
  castling_rook_from := none
  castling_rook_to := none

/-- The "Remove piece from source square" loop of `Board::make_move`: clear the
`from` bit in the first of the mover's six bitboards that contains it. -/
def clearFromSquare (ps : SidePieces) (from_mask : Nat) : SidePieces :=
  if ps.pawn &&& from_mask ≠ 0 then { ps with pawn := ps.pawn &&& not64 from_mask }
  else if ps.knight &&& from_mask ≠ 0 then { ps with knight := ps.knight &&& not64 from_mask }
  else if ps.bishop &&& from_mask ≠ 0 then { ps with bishop := ps.bishop &&& not64 from_mask }
  else if ps.rook &&& from_mask ≠ 0 then { ps with rook := ps.rook &&& not64 from_mask }
  else if ps.queen &&& from_mask ≠ 0 then { ps with queen := ps.queen &&& not64 from_mask }
  else if ps.king &&& from_mask ≠ 0 then { ps with king := ps.king &&& not64 from_mask }
  else ps

/-- The "Update castling rights" block of `Board::make_move` (src/board.rs
lines 181-196): moving the king clears both of the mover's rights, moving a
rook from its corner clears that corner's right.  (No clause for captures of
rooks.) -/
def updateCastlingRights (castling_rights : Nat) (side_to_move : Color) (mv : Move) : Nat :=
  if mv.piece = Piece.king then
    match side_to_move with
    | .white => castling_rights &&& not8 0b0011
    | .black => castling_rights &&& not8 0b1100
  else if mv.piece = Piece.rook then
    match side_to_move, mv.fromSq with
    | .white, 0 => castling_rights &&& not8 0b0010
    | .white, 7 => castling_rights &&& not8 0b0001
    | .black, 56 => castling_rights &&& not8 0b1000
    | .black, 63 => castling_rights &&& not8 0b0100
    | _, _ => castling_rights
  else castling_rights

/-- The "Update en passant square" block of `Board::make_move` (src/board.rs
lines 198-203).  The square arithmetic on u8 is carried out on Nat; for black
`mv.from - 8` uses truncated subtraction where the Rust u8 subtraction would
underflow (only for squares on rank 0, unreachable for a pawn). -/
def updateEnPassant (side_to_move : Color) (mv : Move) : Option Nat :=
  if mv.piece = Piece.pawn ∧ ((mv.toSq : Int) - (mv.fromSq : Int)).natAbs = 16 then
    some (match side_to_move with
          | .white => mv.fromSq + 8
          | .black => mv.fromSq - 8)
  else none

/-- `Board::make_move` (src/board.rs lines 77-217), as a pure function from a
board and a move to the successor board. -/
def Board.make_move (self : Board) (mv : Move) : Board :=
  let from_mask := 1 <<< mv.fromSq
  let to_mask := 1 <<< mv.toSq
  let is_white := self.side_to_move = Color.white
  let pieces := if is_white then self.white_pieces else self.black_pieces
  let pieces := clearFromSquare pieces from_mask
  let opp := if is_white then self.black_pieces else self.white_pieces
  let opp :=
    match mv.captured_piece with
    | none => opp
    | some captured_piece =>
      let piece_index := pieceIndex captured_piece
      let captured_square :=
        if mv.is_en_passant then
          if is_white then mv.toSq - 8 else mv.toSq + 8
        else mv.toSq
      let captured_mask := 1 <<< captured_square
      opp.update piece_index (fun bb => bb &&& not64 captured_mask)
  let piece_index := pieceIndex mv.piece
  let pieces :=
    match mv.promotion with
    | some promotion => pieces.update (pieceIndex promotion) (fun bb => bb ||| to_mask)
    | none => pieces.update piece_index (fun bb => bb ||| to_mask)
  let pieces :=
    if mv.is_castling then
      let corner : Nat × Nat :=
        if mv.fromSq < mv.toSq then
          if is_white then (7, 5) else (63, 61)
        else
          if is_white then (0, 3) else (56, 59)
      pieces.update 3 (fun bb => (bb &&& not64 (1 <<< corner.1)) ||| (1 <<< corner.2))
    else pieces
  let castling_rights := updateCastlingRights self.castling_rights self.side_to_move mv
  let en_passant_square := updateEnPassant self.side_to_move mv
  let halfmove_clock :=
    if mv.piece = Piece.pawn ∨ mv.captured_piece.isSome then 0
    else (self.halfmove_clock + 1) % 256
  let fullmove_number :=
    if is_white then self.fullmove_number else (self.fullmove_number + 1) % 65536
  { white_pieces := if is_white then pieces else opp
    black_pieces := if is_white then opp else pieces
    side_to_move := self.side_to_move.opposite
    castling_rights := castling_rights
    en_passant_square := en_passant_square
    halfmove_clock := halfmove_clock
    fullmove_number := fullmove_number }

/-- The pawn-attack candidate mask built at the top of
`MoveGenerator::is_square_under_attack` (src/movegen.rs lines 160-186).
As in the source, a *white* attacker is looked for on the two diagonal
squares one rank *above* the target (`square + 7`, `square + 9`) and a black
attacker one rank *below* (`square - 9`, `square - 7`). -/
def pawnAttackMask (square : Nat) (attacker_color : Color) : Nat :=
  let square_rank := square / 8
  let square_file := square % 8
  match attacker_color with
  | .white =>
    let a := 0
    let a := if square_rank < 7 ∧ 0 < square_file then a ||| (1 <<< (square + 7)) else a
    let a := if square_rank < 7 ∧ square_file < 7 then a ||| (1 <<< (square + 9)) else a
    a
  | .black =>
    let a := 0
    let a := if 0 < square_rank ∧ 0 < square_file then a ||| (1 <<< (square - 9)) else a
    let a := if 0 < square_rank ∧ square_file < 7 then a ||| (1 <<< (square - 7)) else a
    a

/-- The knight jump offsets of `is_square_under_attack` (src/movegen.rs). -/
def knightOffsets : List (Int × Int) :=
  [(-2, -1), (-2, 1), (-1, -2), (-1, 2), (1, -2), (1, 2), (2, -1), (2, 1)]

/-- The king neighbor offsets of `is_square_under_attack` (src/movegen.rs). -/
def kingOffsets : List (Int × Int) :=
  [(-1, -1), (-1, 0), (-1, 1), (0, -1), (0, 1), (1, -1), (1, 0), (1, 1)]

/-- Accumulate the on-board squares reached by a list of (rank, file) offsets
from `square` into a bitboard (the knight- and king-attack masks of
`is_square_under_attack`). -/
def jumpMask (square : Nat) (offsets : List (Int × Int)) : Nat :=
  let square_rank : Int := square / 8
  let square_file : Int := square % 8
  offsets.foldl
    (fun attacks d =>
      let rank := square_rank + d.1
      let file := square_file + d.2
      if 0 ≤ rank ∧ rank < 8 ∧ 0 ≤ file ∧ file < 8 then
        attacks ||| (1 <<< (rank * 8 + file).toNat)
      else attacks)
    0

/-- One sliding ray of the attack query (`loop { rank += dr; ... }` in
`is_square_under_attack`): walk from (r, f) in direction (dr, df); report true
on reaching a square of `sliders` (the attacker's bishop|queen or rook|queen
board), stop on the board edge or on any other occupied square.  `fuel = 8`
bounds the walk as the 8x8 board does in the source. -/
def rayHitsSlider (ap dp : SidePieces) (sliders : Nat) (dr df : Int) :
    Int → Int → Nat → Bool
  | _, _, 0 => false
  | r, f, fuel + 1 =>
    let r := r + dr
    let f := f + df
    if r < 0 ∨ 8 ≤ r ∨ f < 0 ∨ 8 ≤ f then false
    else
      let target := 1 <<< (r * 8 + f).toNat
      if sliders &&& target ≠ 0 then true
      else if (dp.toList.any fun bb => bb &&& target != 0) ∨
              (ap.toList.any fun bb => bb &&& target != 0) then false
      else rayHitsSlider ap dp sliders dr df r f fuel

/-- The four diagonal directions of src/movegen.rs. -/
def diagDirs : List (Int × Int) := [(1, 1), (1, -1), (-1, 1), (-1, -1)]

/-- The four orthogonal directions of src/movegen.rs. -/
def orthoDirs : List (Int × Int) := [(1, 0), (-1, 0), (0, 1), (0, -1)]

/-- `MoveGenerator::is_square_under_attack` (src/movegen.rs lines 147-279). -/
def is_square_under_attack (board : Board) (square : Nat) (attacker_color : Color) : Bool :=
  let ap := match attacker_color with
            | .white => board.white_pieces
            | .black => board.black_pieces
  let dp := match attacker_color with
            | .white => board.black_pieces
            | .black => board.white_pieces
  if pawnAttackMask square attacker_color &&& ap.pawn ≠ 0 then true
  else if jumpMask square knightOffsets &&& ap.knight ≠ 0 then true
  else if jumpMask square kingOffsets &&& ap.king ≠ 0 then true
  else if diagDirs.any (fun d =>
      rayHitsSlider ap dp (ap.bishop ||| ap.queen) d.1 d.2 (square / 8) (square % 8) 8) then true
  else if orthoDirs.any (fun d =>
      rayHitsSlider ap dp (ap.rook ||| ap.queen) d.1 d.2 (square / 8) (square % 8) 8) then true
  else false

/-- The king-locating scan of `MoveGenerator::is_king_in_check`: the first
square in 0..64 whose bit is set in the king bitboard. -/
def findKingSquare (king_pieces : Nat) : Option Nat :=
  (List.range 64).find? fun square => (king_pieces >>> square) &&& 1 != 0

/-- `MoveGenerator::is_king_in_check` (src/movegen.rs lines 281-301): locate
the king of `color` and query `is_square_under_attack`; `false` when no king
bit is set. -/
def is_king_in_check (board : Board) (color : Color) : Bool :=
  let king_pieces := match color with
                     | .white => board.white_pieces.king
                     | .black => board.black_pieces.king
  match findKingSquare king_pieces with
  | some king_square => is_square_under_attack board king_square color.opposite
  | none => false

/-- The private `MoveGenerator::get_piece_at` (src/movegen.rs lines 930-975):
scan white then black bitboards in array order; defaults to `Pawn` when no
piece occupies the square. -/
def get_piece_at (board : Board) (square : Nat) : Piece :=
  let square_mask := 1 <<< square
  if board.white_pieces.pawn &&& square_mask ≠ 0 then .pawn
  else if board.white_pieces.knight &&& square_mask ≠ 0 then .knight
  else if board.white_pieces.bishop &&& square_mask ≠ 0 then .bishop
  else if board.white_pieces.rook &&& square_mask ≠ 0 then .rook
  else if board.white_pieces.queen &&& square_mask ≠ 0 then .queen
  else if board.white_pieces.king &&& square_mask ≠ 0 then .king
  else if board.black_pieces.pawn &&& square_mask ≠ 0 then .pawn
  else if board.black_pieces.knight &&& square_mask ≠ 0 then .knight
  else if board.black_pieces.bishop &&& square_mask ≠ 0 then .bishop
  else if board.black_pieces.rook &&& square_mask ≠ 0 then .rook
  else if board.black_pieces.queen &&& square_mask ≠ 0 then .queen
  else if board.black_pieces.king &&& square_mask ≠ 0 then .king
  else .pawn

/-- The emptiness test
`board.white_pieces[0..6].iter().chain(board.black_pieces[0..6].iter()).all(|&p| (p & mask) == 0)`
used throughout `generate_moves`. -/
def squareIsEmpty (board : Board) (mask : Nat) : Bool :=
  (board.white_pieces.toList ++ board.black_pieces.toList).all fun p => p &&& mask == 0

/-- The legality filter that follows every candidate move in
`MoveGenerator::generate_moves`: make the move on a clone and keep it only if
the mover's king is not in check afterwards. -/
def pushIfLegal (board : Board) (mv : Move) : List Move :=
  if is_king_in_check (board.make_move mv) board.side_to_move then [] else [mv]

/-- The promotion kinds iterated in `generate_moves`
(`[Piece::Queen, Piece::Rook, Piece::Bishop, Piece::Knight]`). -/
def promotionKinds : List Piece := [.queen, .rook, .bishop, .knight]

/-- The pawn block of `generate_moves` (src/movegen.rs lines 542-700) for one
pawn on `fromSq`: single push, double push, diagonal captures, en passant,
each run through the legality filter; pushes to the last rank expand into the
four promotion kinds. -/
def pawnMovesFrom (board : Board) (opponent_pieces : SidePieces) (white : Bool)
    (fromSq : Nat) : List Move :=
  let single :=
    let toOpt : Option Nat :=
      if white then
        if fromSq + 8 < 64 ∧ fromSq / 8 < 7 then some (fromSq + 8) else none
      else
        if 8 ≤ fromSq ∧ 0 < fromSq / 8 then some (fromSq - 8) else none
    match toOpt with
    | none => []
    | some toSquare =>
      if squareIsEmpty board (1 <<< toSquare) then
        if (white = true ∧ 56 ≤ toSquare) ∨ (white = false ∧ toSquare < 8) then
          promotionKinds.flatMap fun promotion =>
            pushIfLegal board (Move.new_promotion fromSq toSquare promotion)
        else
          pushIfLegal board (Move.new fromSq toSquare .pawn)
      else []
  let double :=
    let toOpt : Option Nat :=
      if white then
        if fromSq + 16 < 64 ∧ fromSq / 8 = 1 then some (fromSq + 16) else none
      else
        if 16 ≤ fromSq ∧ fromSq / 8 = 6 then some (fromSq - 16) else none
    match toOpt with
    | none => []
    | some toSquare =>
      let intermediate := if white then fromSq + 8 else fromSq - 8
      if squareIsEmpty board (1 <<< toSquare) && squareIsEmpty board (1 <<< intermediate) then
        pushIfLegal board (Move.new fromSq toSquare .pawn)
      else []
  let caps :=
    let from_rank : Int := fromSq / 8
    let from_file : Int := fromSq % 8
    let capture_squares : List (Int × Int) :=
      if white then [(from_rank + 1, from_file - 1), (from_rank + 1, from_file + 1)]
      else [(from_rank - 1, from_file - 1), (from_rank - 1, from_file + 1)]
    capture_squares.flatMap fun rf =>
      if 0 ≤ rf.1 ∧ rf.1 < 8 ∧ 0 ≤ rf.2 ∧ rf.2 < 8 then
        let toSquare := (rf.1 * 8 + rf.2).toNat
        let to_mask := 1 <<< toSquare
        if opponent_pieces.toList.any (fun p => p &&& to_mask != 0) then
          let captured_piece := get_piece_at board toSquare
          if (white = true ∧ rf.1 = 7) ∨ (white = false ∧ rf.1 = 0) then
            promotionKinds.flatMap fun promotion =>
              pushIfLegal board (Move.new_promotion_capture fromSq toSquare captured_piece promotion)
          else
            pushIfLegal board { Move.new fromSq toSquare .pawn with captured_piece := some captured_piece }
        else []
      else []
  let ep :=
    match board.en_passant_square with
    | none => []
    | some ep_square =>
      let ep_rank := ep_square / 8
      let from_rank := fromSq / 8
      let from_file := fromSq % 8
      let ep_file := ep_square % 8
      if (white = true ∧ ep_rank = 5 ∧ from_rank = 4) ∨
         (white = false ∧ ep_rank = 2 ∧ from_rank = 3) then
        if ((ep_file : Int) - (from_file : Int)).natAbs = 1 then
          let captured_pawn_square := if white then ep_square - 8 else ep_square + 8
          let captured_pawn_mask := 1 <<< captured_pawn_square
          let has_pawn_to_capture :=
            if white then board.black_pieces.pawn &&& captured_pawn_mask != 0
            else board.white_pieces.pawn &&& captured_pawn_mask != 0
          if has_pawn_to_capture then
            pushIfLegal board (Move.new_en_passant fromSq ep_square .pawn)
          else []
        else []
      else []
  single ++ double ++ caps ++ ep

/-- Knight jump offsets in the order of the knight block of `generate_moves`. -/
def knightGenOffsets : List (Int × Int) :=
  [(2, 1), (2, -1), (-2, 1), (-2, -1), (1, 2), (1, -2), (-1, 2), (-1, -2)]

/-- King step offsets in the order of the king block of `generate_moves`. -/
def kingGenOffsets : List (Int × Int) :=
  [(1, 0), (1, 1), (0, 1), (-1, 1), (-1, 0), (-1, -1), (0, -1), (1, -1)]

/-- The knight/king step blocks of `generate_moves`: try each offset, accept
capture or empty destinations, record the captured piece, filter legality. -/
def stepMovesFrom (board : Board) (pieces opponent_pieces : SidePieces) (piece : Piece)
    (offsets : List (Int × Int)) (fromSq : Nat) : List Move :=
  let from_rank : Int := fromSq / 8
  let from_file : Int := fromSq % 8
  offsets.flatMap fun d =>
    let rank := from_rank + d.1
    let file := from_file + d.2
    if 0 ≤ rank ∧ rank < 8 ∧ 0 ≤ file ∧ file < 8 then
      let toSquare := (rank * 8 + file).toNat
      let to_mask := 1 <<< toSquare
      let is_capture := opponent_pieces.toList.any fun p => p &&& to_mask != 0
      let is_empty := ! pieces.toList.any fun p => p &&& to_mask != 0
      if is_capture || is_empty then
        let mv := Move.new fromSq toSquare piece
        let mv := if is_capture then { mv with captured_piece := some (get_piece_at board toSquare) } else mv
        pushIfLegal board mv
      else []
    else []

/-- One ray of `MoveGenerator::get_bishop_attacks` / `get_rook_attacks`: the
squares reached in direction (dr, df), including the first occupied square,
as a bitboard.  `fuel = 8` bounds the walk as the board edge does. -/
def rayMask (occupied : Nat) (dr df : Int) : Int → Int → Nat → Nat
  | _, _, 0 => 0
  | r, f, fuel + 1 =>
    let r := r + dr
    let f := f + df
    if r < 0 ∨ 8 ≤ r ∨ f < 0 ∨ 8 ≤ f then 0
    else
      let target_mask := 1 <<< (r * 8 + f).toNat
      if occupied &&& target_mask ≠ 0 then target_mask
      else target_mask ||| rayMask occupied dr df r f fuel

/-- `MoveGenerator::get_bishop_attacks` (src/movegen.rs lines 101-122). -/
def get_bishop_attacks (square : Nat) (occupied : Nat) : Nat :=
  diagDirs.foldl
    (fun attacks d =>
      attacks ||| rayMask occupied d.1 d.2 ((square / 8 : Nat) : Int) ((square % 8 : Nat) : Int) 8)
    0

/-- `MoveGenerator::get_rook_attacks` (src/movegen.rs lines 124-145). -/
def get_rook_attacks (square : Nat) (occupied : Nat) : Nat :=
  orthoDirs.foldl
    (fun attacks d =>
      attacks ||| rayMask occupied d.1 d.2 ((square / 8 : Nat) : Int) ((square % 8 : Nat) : Int) 8)
    0

/-- The bishop/rook/queen blocks of `generate_moves`: iterate the destination
squares of the precomputed attack mask, accept capture or empty destinations,
filter legality. -/
def sliderMovesFrom (board : Board) (pieces opponent_pieces : SidePieces) (piece : Piece)
    (attacks : Nat) (fromSq : Nat) : List Move :=
  (List.range 64).flatMap fun toSquare =>
    if (attacks >>> toSquare) &&& 1 == 0 then []
    else
      let to_mask := 1 <<< toSquare
      let is_capture := opponent_pieces.toList.any fun p => p &&& to_mask != 0
      let is_empty := ! pieces.toList.any fun p => p &&& to_mask != 0
      if is_capture || is_empty then
        let mv := Move.new fromSq toSquare piece
        let mv := if is_capture then { mv with captured_piece := some (get_piece_at board toSquare) } else mv
        pushIfLegal board mv
      else []

/-- The castling candidates of the king block of `generate_moves`
(src/movegen.rs lines 858-923): right present, rook at home, squares between
empty, king/pass-through/destination squares not attacked; then the usual
legality filter. -/
def castlingMoves (board : Board) (white : Bool) : List Move :=
  let occupied :=
    (board.white_pieces.toList ++ board.black_pieces.toList).foldl (fun acc p => acc ||| p) 0
  if white then
    (if board.castling_rights &&& 0b0001 ≠ 0 ∧
        board.white_pieces.rook &&& (1 <<< 7) ≠ 0 ∧
        occupied &&& ((1 <<< 5) ||| (1 <<< 6)) = 0 ∧
        is_square_under_attack board 4 .black = false ∧
        is_square_under_attack board 5 .black = false ∧
        is_square_under_attack board 6 .black = false then
      pushIfLegal board (Move.new_castling 4 6 7 5)
    else []) ++
    (if board.castling_rights &&& 0b0010 ≠ 0 ∧
        board.white_pieces.rook &&& 1 ≠ 0 ∧
        occupied &&& ((1 <<< 1) ||| (1 <<< 2) ||| (1 <<< 3)) = 0 ∧
        is_square_under_attack board 4 .black = false ∧
        is_square_under_attack board 3 .black = false ∧
        is_square_under_attack board 2 .black = false then
      pushIfLegal board (Move.new_castling 4 2 0 3)
    else [])
  else
    (if board.castling_rights &&& 0b0100 ≠ 0 ∧
        board.black_pieces.rook &&& (1 <<< 63) ≠ 0 ∧
        occupied &&& ((1 <<< 61) ||| (1 <<< 62)) = 0 ∧
        is_square_under_attack board 60 .white = false ∧
        is_square_under_attack board 61 .white = false ∧
        is_square_under_attack board 62 .white = false then
      pushIfLegal board (Move.new_castling 60 62 63 61)
    else []) ++
    (if board.castling_rights &&& 0b1000 ≠ 0 ∧
        board.black_pieces.rook &&& (1 <<< 56) ≠ 0 ∧
        occupied &&& ((1 <<< 57) ||| (1 <<< 58) ||| (1 <<< 59)) = 0 ∧
        is_square_under_attack board 60 .white = false ∧
        is_square_under_attack board 59 .white = false ∧
        is_square_under_attack board 58 .white = false then
      pushIfLegal board (Move.new_castling 60 58 56 59)
    else [])

/-- `MoveGenerator::generate_moves` (src/movegen.rs lines 529-928): the fully
filtered move list, in the source's enumeration order (pawns, knights,
bishops, rooks, queens, king; ascending source square within each block). -/
def generate_moves (board : Board) : List Move :=
  let white : Bool := match board.side_to_move with
                      | .white => true
                      | .black => false
  let pieces := if white then board.white_pieces else board.black_pieces
  let opponent_pieces := if white then board.black_pieces else board.white_pieces
  let occupied :=
    (board.white_pieces.toList ++ board.black_pieces.toList).foldl (fun acc p => acc ||| p) 0
  let pawnMoves := (List.range 64).flatMap fun fromSq =>
    if (pieces.pawn >>> fromSq) &&& 1 == 0 then []
    else pawnMovesFrom board opponent_pieces white fromSq
  let knightMoves := (List.range 64).flatMap fun fromSq =>
    if (pieces.knight >>> fromSq) &&& 1 == 0 then []
    else stepMovesFrom board pieces opponent_pieces .knight knightGenOffsets fromSq
  let bishopMoves := (List.range 64).flatMap fun fromSq =>
    if (pieces.bishop >>> fromSq) &&& 1 == 0 then []
    else sliderMovesFrom board pieces opponent_pieces .bishop (get_bishop_attacks fromSq occupied) fromSq
  let rookMoves := (List.range 64).flatMap fun fromSq =>
    if (pieces.rook >>> fromSq) &&& 1 == 0 then []
    else sliderMovesFrom board pieces opponent_pieces .rook (get_rook_attacks fromSq occupied) fromSq
  let queenMoves := (List.range 64).flatMap fun fromSq =>
    if (pieces.queen >>> fromSq) &&& 1 == 0 then []
    else sliderMovesFrom board pieces opponent_pieces .queen
      (get_bishop_attacks fromSq occupied ||| get_rook_attacks fromSq occupied) fromSq
  let kingMoves := (List.range 64).flatMap fun fromSq =>
    if (pieces.king >>> fromSq) &&& 1 == 0 then []
    else stepMovesFrom board pieces opponent_pieces .king kingGenOffsets fromSq ++
         castlingMoves board white
  pawnMoves ++ knightMoves ++ bishopMoves ++ rookMoves ++ queenMoves ++ kingMoves

/-- Perft: the number of leaf nodes reached by recursively enumerating
`generate_moves` and applying each generated move via `make_move` to a clone
(the counting scheme of the claim; it matches the `perft` helper in the
repository's own test module of src/lib.rs). -/
def perft : Nat → Board → Nat
  | 0, _ => 1
  | depth + 1, board =>
    (generate_moves board).foldl (fun nodes mv => nodes + perft depth (board.make_move mv)) 0

/-- `u64::count_ones`, computed by 64 halving steps (enough for any u64). -/
def popcountAux : Nat → Nat → Nat
  | 0, _ => 0
  | fuel + 1, n => if n = 0 then 0 else n % 2 + popcountAux fuel (n / 2)

/-- Population count of a u64-valued Nat. -/
def count_ones (n : Nat) : Nat := popcountAux 64 n

/-- `MoveGenerator::count_pieces` (src/movegen.rs). -/
def count_pieces (board : Board) : Nat × Nat :=
  ((board.white_pieces.toList.map count_ones).sum,
   (board.black_pieces.toList.map count_ones).sum)

/-- `MoveGenerator::count_minor_pieces` (src/movegen.rs). -/
def count_minor_pieces (board : Board) : Nat × Nat :=
  (count_ones (board.white_pieces.knight ||| board.white_pieces.bishop),
   count_ones (board.black_pieces.knight ||| board.black_pieces.bishop))

/-- `MoveGenerator::count_bishops` (src/movegen.rs). -/
def count_bishops (board : Board) : Nat × Nat :=
  (count_ones board.white_pieces.bishop, count_ones board.black_pieces.bishop)

/-- `u64::trailing_zeros`: index of the lowest set bit (64 for input 0). -/
def trailingZeros64 (n : Nat) : Nat :=
  (((List.range 64).find? fun i => (n >>> i) &&& 1 != 0)).getD 64

/-- `MoveGenerator::find_bishop_square` (src/movegen.rs). -/
def find_bishop_square (board : Board) (color : Color) : Option Nat :=
  let bishops := match color with
                 | .white => board.white_pieces.bishop
                 | .black => board.black_pieces.bishop
  if bishops ≠ 0 then some (trailingZeros64 bishops) else none

/-- `MoveGenerator::is_insufficient_material` (src/movegen.rs lines 1057-1094). -/
def is_insufficient_material (board : Board) : Bool :=
  let white_pieces := (count_pieces board).1
  let black_pieces := (count_pieces board).2
  let white_minors := (count_minor_pieces board).1
  let black_minors := (count_minor_pieces board).2
  let white_bishops := (count_bishops board).1
  let black_bishops := (count_bishops board).2
  if white_pieces = 1 ∧ black_pieces = 1 then true
  else if (white_pieces = 2 ∧ white_bishops = 1 ∧ black_pieces = 1) ∨
          (black_pieces = 2 ∧ black_bishops = 1 ∧ white_pieces = 1) then true
  else if (white_pieces = 2 ∧ white_minors = 1 ∧ black_pieces = 1) ∨
          (black_pieces = 2 ∧ black_minors = 1 ∧ white_pieces = 1) then true
  else if white_pieces = 2 ∧ black_pieces = 2 ∧ white_bishops = 1 ∧ black_bishops = 1 then
    match find_bishop_square board .white, find_bishop_square board .black with
    | some white_sq, some black_sq =>
      let white_is_dark : Bool := decide ((white_sq / 8 + white_sq % 8) % 2 = 1)
      let black_is_dark : Bool := decide ((black_sq / 8 + black_sq % 8) % 2 = 1)
      white_is_dark == black_is_dark
    | _, _ => false
  else false

/-- u64 modulus for the wrapping arithmetic of `get_position_hash`. -/
def U64_MOD : Nat := 18446744073709551616

/-- One `hash = hash.wrapping_mul(p); hash = hash.wrapping_add(bb)` step of
`MoveGenerator::get_position_hash`. -/
def hashStep (h p bb : Nat) : Nat := ((h * p) % U64_MOD + bb) % U64_MOD

/-- `MoveGenerator::get_position_hash` (src/movegen.rs lines 1027-1055), with
the `PRIME_NUMBERS` constants inlined at their indices (0-5 for white pieces,
6-11 for black, 12 for castling, 13 for en passant, 14 for side to move). -/
def get_position_hash (board : Board) : Nat :=
  let h := (List.zip [2, 3, 5, 7, 11, 13] board.white_pieces.toList).foldl
    (fun h pb => hashStep h pb.1 pb.2) 0
  let h := (List.zip [17, 19, 23, 29, 31, 37] board.black_pieces.toList).foldl
    (fun h pb => hashStep h pb.1 pb.2) h
  let h := hashStep h 41 board.castling_rights
  let h := match board.en_passant_square with
           | some ep_square => hashStep h 43 ep_square
           | none => h
  hashStep h 47 (match board.side_to_move with
                 | .white => 0
                 | .black => 1)

/-- `MoveGenerator::is_threefold_repetition` (src/movegen.rs lines 1011-1025):
the current position hash occurs at least three times counting the current
position and the recorded history. -/
def is_threefold_repetition (board : Board) (move_history : List (Board × Move)) : Bool :=
  let current_hash := get_position_hash board
  let repetition_count :=
    1 + (move_history.filter fun pm => get_position_hash pm.1 == current_hash).length
  decide (3 ≤ repetition_count)

/-- `enum GameState` (src/movegen.rs). -/
inductive GameState where
  | ongoing
  | checkmate (winner : Color)
  | stalemate
  | threefoldRepetition
  | fiftyMoveRule
  | insufficientMaterial
deriving DecidableEq

/-- `MoveGenerator::get_game_state` (src/movegen.rs lines 977-1009).  Note the
source's fifty-move test compares the halfmove clock against 50. -/
def get_game_state (board : Board) (move_history : List (Board × Move)) : GameState :=
  if is_insufficient_material board then .insufficientMaterial
  else if 50 ≤ board.halfmove_clock then .fiftyMoveRule
  else if is_threefold_repetition board move_history then .threefoldRepetition
  else
    let moves := generate_moves board
    if moves.isEmpty then
      if is_king_in_check board board.side_to_move then .checkmate board.side_to_move.opposite
      else .stalemate
    else .ongoing

/-- `enum NodeType` (src/transposition.rs). -/
inductive NodeType where
  | exact
  | lowerBound
  | upperBound
deriving DecidableEq

/-- `struct TranspositionEntry` (src/transposition.rs). -/
structure TranspositionEntry where
  hash : Nat
  depth : Nat
  score : Int
  node_type : NodeType
  best_move : Option Nat
deriving DecidableEq

/-- `TranspositionTable::probe` (src/transposition.rs lines 41-60).  The
`HashMap` state is abstracted as the lookup function `table`; `probe` reads
`table hash` exactly as the source reads `self.table.get(&hash)` and mutates
nothing. -/
def probe (table : Nat → Option TranspositionEntry) (hash : Nat) (depth : Nat)
    (alpha beta : Int) : Option Int :=
  match table hash with
  | some entry =>
    if depth ≤ entry.depth then
      match entry.node_type with
      | .exact => some entry.score
      | .lowerBound => if beta ≤ entry.score then some entry.score else none
      | .upperBound => if entry.score ≤ alpha then some entry.score else none
    else none
  | none => none

/-- `i32::MAX`; `Search` uses `-i32::MAX` as the initial best score. -/
def INT32_MAX : Int := 2147483647

/-- The move loop of `Search::negamax` (src/search.rs lines 100-140) with the
child scores `-self.negamax(...)` abstracted as the list `scores` (they depend
on the transposition table, killer/history state, the random move ordering and
the clock) and the deadline never expiring.  State `(alpha, best_score)`
evolves exactly as in the source: `best_score` takes any strictly improving
score, `alpha` is tightened to `max alpha score`, and the loop breaks when
`alpha >= beta`.  Returns `(best_score, alpha)` at loop exit. -/
def negamaxLoop (beta : Int) : List Int → Int → Int → Int × Int
  | [], alpha, best_score => (best_score, alpha)
  | score :: rest, alpha, best_score =>
    let best_score := if best_score < score then score else best_score
    let alpha := max alpha score
    if beta ≤ alpha then (best_score, alpha)
    else negamaxLoop beta rest alpha best_score

/-- The "Store in transposition table" classification of `Search::negamax`
(src/search.rs lines 142-158), applied to the state left by the move loop
started from the caller's window `(alpha, beta)` and
`best_score = -i32::MAX`: `UpperBound` if `best_score <= alpha` (the `alpha`
mutated by the loop), else `LowerBound` if `best_score >= beta`, else `Exact`.
Returns the stored `(score, node_type)`. -/
def negamaxStore (alpha beta : Int) (scores : List Int) : Int × NodeType :=
  let r := negamaxLoop beta scores alpha (-INT32_MAX)
  let best_score := r.1
  let alpha := r.2
  let node_type : NodeType :=
    if best_score ≤ alpha then .upperBound
    else if beta ≤ best_score then .lowerBound
    else .exact
  (best_score, node_type)

/-- The root move loop of `Search::find_best_move` (src/search.rs lines 55-73)
with the per-iteration scores `-self.negamax(...)` abstracted as `score i` and
the deadline poll `self.start_time.elapsed() > self.max_time` (checked after
each iteration) abstracted as `stop i`.  `best_move` takes any strictly
improving move; the tightened `alpha` does not affect which move is
returned. -/
def rootLoop (score : Nat → Int) (stop : Nat → Bool) :
    List Move → Nat → Int → Option Move → Option Move
  | [], _, _, best_move => best_move
  | mv :: rest, i, best_score, best_move =>
    let best_move := if best_score < score i then some mv else best_move
    let best_score := if best_score < score i then score i else best_score
    if stop i then best_move
    else rootLoop score stop rest (i + 1) best_score best_move

/-- `Search::find_best_move` (src/search.rs lines 38-76): generate the legal
moves, return `None` when the list is empty, otherwise run the root loop over
the ordered list (`order_moves` permutes the list in place; `ordered` stands
for its output) starting from `best_score = -i32::MAX`, `best_move = None`. -/
def find_best_move (board : Board) (score : Nat → Int) (stop : Nat → Bool)
    (ordered : List Move) : Option Move :=
  let moves := generate_moves board
  if moves.isEmpty then none
  else rootLoop score stop ordered 0 (-INT32_MAX) none

/-- A side with no pieces. -/
def emptySide : SidePieces :=
  { pawn := 0, knight := 0, bishop := 0, rook := 0, queen := 0, king := 0 }

/-- A board whose only piece set is the given white pawn bitboard
(white to move, no rights, no en passant). -/
def pawnOnlyBoard (white_pawn : Nat) : Board where
  white_pieces := { emptySide with pawn := white_pawn }
  black_pieces := emptySide
  side_to_move := .white
  castling_rights := 0
  en_passant_square := none
  halfmove_clock := 0
  fullmove_number := 1

/-- Black to move, all castling rights nominally present, white rook still on
its h1 home corner, black bishop on e4 aiming at h1. -/
def rookCaptureBoard : Board where
  white_pieces := { emptySide with rook := 1 <<< 7, king := 1 <<< 4 }
  black_pieces := { emptySide with bishop := 1 <<< 28, king := 1 <<< 60 }
  side_to_move := .black
  castling_rights := 0b1111
  en_passant_square := none
  halfmove_clock := 0
  fullmove_number := 1

/-- The capture `Bxh1` (e4 to h1) taking the white rook on its home corner. -/
def bxh1 : Move := { Move.new 28 7 .bishop with captured_piece := some .rook }

/-- A board with a lone white king on a1 (used as a concrete witness input). -/
def smallKingBoard : Board where
  white_pieces := { emptySide with king := 1 }
  black_pieces := emptySide
  side_to_move := .white
  castling_rights := 0
  en_passant_square := none
  halfmove_clock := 0
  fullmove_number := 1

/-- The position after 1. e4 d5 2. Ke2 d4 (squares: e2e4 = 12 to 28,
d7d5 = 51 to 35, e1e2 = 4 to 12, d5d4 = 35 to 27), reached from the initial
position by `make_move`; each of the four moves is produced by
`generate_moves` at its position (proved below). -/
def kingIntoPawnAttackBoard : Board :=
  ((((Board.new.make_move (Move.new 12 28 .pawn)).make_move
      (Move.new 51 35 .pawn)).make_move
      (Move.new 4 12 .king)).make_move
      (Move.new 35 27 .pawn))

/-- Any result of `updateCastlingRights` is a bitwise subset of the input
rights: every branch returns either the input or the input masked with a
constant. -/
theorem updateCastlingRights_subset (cr : Nat) (side : Color) (mv : Move) (i : Nat)
    (h : (updateCastlingRights cr side mv).testBit i = true) : cr.testBit i = true := by
  unfold updateCastlingRights at h
  by_cases hk : mv.piece = Piece.king
  · rw [if_pos hk] at h
    cases side <;>
      simp only [Nat.testBit_land, Bool.and_eq_true] at h <;> exact h.1
  · rw [if_neg hk] at h
    by_cases hr : mv.piece = Piece.rook
    · rw [if_pos hr] at h
      split at h
      · simp only [Nat.testBit_land, Bool.and_eq_true] at h; exact h.1
      · simp only [Nat.testBit_land, Bool.and_eq_true] at h; exact h.1
      · simp only [Nat.testBit_land, Bool.and_eq_true] at h; exact h.1
      · simp only [Nat.testBit_land, Bool.and_eq_true] at h; exact h.1
      · exact h
    · rw [if_neg hr] at h; exact h

/-- C8: castling rights are monotone non-increasing — for every board and
every move, each castling-rights bit set after `make_move` was already set
before the move; `make_move` never sets a previously clear right. -/
theorem C8_castling_rights_monotone (b : Board) (mv : Move) (i : Nat)
    (h : ((b.make_move mv).castling_rights).testBit i = true) :
    b.castling_rights.testBit i = true := by
  have e : (b.make_move mv).castling_rights
      = updateCastlingRights b.castling_rights b.side_to_move mv := rfl
  rw [e] at h
  exact updateCastlingRights_subset _ _ _ _ h

/-- Witness for C8 at a concrete input: after 1. e4 from the initial position
the white-kingside bit is still set, hence was set before. -/
theorem C8_witness : Board.new.castling_rights.testBit 0 = true :=
  C8_castling_rights_monotone Board.new (Move.new 12 28 .pawn) 0 (by decide)

/-- C9: after `make_move`, the en-passant square is `some s` with
`s = from + 8` for white and `s = from - 8` for black exactly when the moved
piece is a pawn and `|to - from| = 16`; otherwise it is `none`.  The
hypotheses keep the squares in range and keep black's `from - 8` away from
the u8 underflow that the Rust code would hit on a nonsense move. -/
theorem C9_en_passant_update (b : Board) (mv : Move)
    (h1 : mv.fromSq < 64) (h2 : mv.toSq < 64)
    (h3 : b.side_to_move = Color.black → 8 ≤ mv.fromSq) :
    (b.make_move mv).en_passant_square =
      if mv.piece = Piece.pawn ∧ ((mv.toSq : Int) - (mv.fromSq : Int)).natAbs = 16 then
        some (match b.side_to_move with
              | Color.white => mv.fromSq + 8
              | Color.black => mv.fromSq - 8)
      else none := by
  have e : (b.make_move mv).en_passant_square = updateEnPassant b.side_to_move mv := rfl
  rw [e]
  rfl

/-- Witness for C9: the double push e2e4 from the initial position sets the
en-passant square to e3 (square 20). -/
theorem C9_witness :
    (Board.new.make_move (Move.new 12 28 Piece.pawn)).en_passant_square = some 20 := by
  have h := C9_en_passant_update Board.new (Move.new 12 28 Piece.pawn)
    (by decide) (by decide) (fun hcol => by decide)
  rw [h]
  decide

/-- C10: when the given color has no king bit set, `is_king_in_check` returns
`false` (the king scan finds no square and the query is total). -/
theorem C10_no_king_no_check (b : Board) (c : Color)
    (h : (match c with
          | Color.white => b.white_pieces.king
          | Color.black => b.black_pieces.king) = 0) :
    is_king_in_check b c = false := by
  unfold is_king_in_check
  cases c <;> dsimp only at h ⊢ <;> rw [h] <;> rfl

/-- Witness for C10: a board holding only a white pawn has no white king, and
the check query returns `false` on it. -/
theorem C10_witness : is_king_in_check (pawnOnlyBoard (1 <<< 28)) Color.white = false :=
  C10_no_king_no_check (pawnOnlyBoard (1 <<< 28)) Color.white rfl

/-- C2 (counterexample evaluation): `is_square_under_attack` looks for an
attacking white pawn *above* the target instead of below.  With a lone white
pawn on e4 (square 28 = 35 - 7, a square from which a white pawn really
attacks d5 = 35) the query reports no attack; with the lone pawn on
c6 (square 42 = 35 + 7, which does not attack d5) it reports an attack. -/
theorem C2_pawn_attack_reversed :
    is_square_under_attack (pawnOnlyBoard (1 <<< 28)) 35 Color.white = false ∧
    (pawnOnlyBoard (1 <<< 28)).white_pieces.pawn.testBit 28 = true ∧
    35 - 7 = 28 ∧
    is_square_under_attack (pawnOnlyBoard (1 <<< 42)) 35 Color.white = true ∧
    (pawnOnlyBoard (1 <<< 42)).white_pieces.pawn = 1 <<< 42 ∧
    35 + 7 = 42 := by decide

/-- C3 (failing-input evaluation): with the halfmove clock at 50 — below the
100 plies the claim requires — and 20 legal moves available, the classifier
already returns the fifty-move-rule state, because the source compares the
clock against 50. -/
theorem C3_fifty_move_rule_at_50 :
    get_game_state { Board.new with halfmove_clock := 50 } [] = GameState.fiftyMoveRule ∧
    (generate_moves { Board.new with halfmove_clock := 50 }).length = 20 ∧
    (50 : Nat) < 100 := by decide

/-- C4 (failing-input evaluation): a completed negamax move loop with original
window (0, 10) and a single child score of 5 returns best score 5, which lies
strictly inside the original window, yet the source's classification — made
against the mutated alpha — stores `UpperBound`, not the `Exact` the claim
requires. -/
theorem C4_bound_against_mutated_alpha :
    (negamaxStore 0 10 [5]).1 = 5 ∧
    (negamaxStore 0 10 [5]).2 = NodeType.upperBound ∧
    ((0 : Int) < 5 ∧ (5 : Int) < 10) ∧
    NodeType.upperBound ≠ NodeType.exact := by decide

/-- C5 (failing-input evaluation): the black bishop capture Bxh1 removes the
white rook from its h1 home corner, yet `make_move` leaves all four
castling-rights bits — including white kingside (bit 0) — set. -/
theorem C5_rook_capture_right_not_cleared :
    (rookCaptureBoard.make_move bxh1).castling_rights = 0b1111 ∧
    (rookCaptureBoard.make_move bxh1).castling_rights.testBit 0 = true ∧
    (rookCaptureBoard.make_move bxh1).white_pieces.rook = 0 := by decide

/-- C7: `probe` returns `some s` exactly when the table holds an entry under
the hash whose depth is at least the requested depth and whose score `s`
satisfies the bound condition — `Exact`, or `LowerBound` with `s ≥ β`, or
`UpperBound` with `s ≤ α`; in every other case it returns `none` (and, being
a pure function of the table, changes nothing). -/
theorem C7_probe_characterization (table : Nat → Option TranspositionEntry)
    (hash depth : Nat) (alpha beta s : Int) :
    probe table hash depth alpha beta = some s ↔
      ∃ entry, table hash = some entry ∧ depth ≤ entry.depth ∧ entry.score = s ∧
        (entry.node_type = NodeType.exact ∨
         (entry.node_type = NodeType.lowerBound ∧ beta ≤ entry.score) ∨
         (entry.node_type = NodeType.upperBound ∧ entry.score ≤ alpha)) := by
  constructor
  · intro hp
    unfold probe at hp
    cases htab : table hash with
    | none => rw [htab] at hp; cases hp
    | some entry =>
      rw [htab] at hp
      dsimp only at hp
      by_cases hd : depth ≤ entry.depth
      · rw [if_pos hd] at hp
        cases hnt : entry.node_type with
        | exact =>
          rw [hnt] at hp
          exact ⟨entry, rfl, hd, Option.some.inj hp, Or.inl hnt⟩
        | lowerBound =>
          rw [hnt] at hp
          by_cases hb : beta ≤ entry.score
          · rw [if_pos hb] at hp
            exact ⟨entry, rfl, hd, Option.some.inj hp, Or.inr (Or.inl ⟨hnt, hb⟩)⟩
          · rw [if_neg hb] at hp; cases hp
        | upperBound =>
          rw [hnt] at hp
          by_cases ha : entry.score ≤ alpha
          · rw [if_pos ha] at hp
            exact ⟨entry, rfl, hd, Option.some.inj hp, Or.inr (Or.inr ⟨hnt, ha⟩)⟩
          · rw [if_neg ha] at hp; cases hp
      · rw [if_neg hd] at hp; cases hp
  · rintro ⟨entry, htab, hd, hs, hcase⟩
    unfold probe
    rw [htab]
    dsimp only
    rw [if_pos hd]
    rcases hcase with hnt | ⟨hnt, hb⟩ | ⟨hnt, ha⟩
    · rw [hnt, hs]
    · rw [hnt, if_pos hb, hs]
    · rw [hnt, if_pos ha, hs]

/-- Witness for C7 at a concrete table: a depth-7 exact entry with score 42
stored under hash 99 satisfies the characterization for a probe at depth 5. -/
theorem C7_witness :
    probe (fun h => if h = 99 then some ⟨99, 7, 42, NodeType.exact, none⟩ else none)
        99 5 0 10 = some 42 ↔
      ∃ entry,
        (fun h => if h = 99 then some (⟨99, 7, 42, NodeType.exact, none⟩ : TranspositionEntry)
                  else none) 99 = some entry ∧
        5 ≤ entry.depth ∧ entry.score = 42 ∧
        (entry.node_type = NodeType.exact ∨
         (entry.node_type = NodeType.lowerBound ∧ 10 ≤ entry.score) ∨
         (entry.node_type = NodeType.upperBound ∧ entry.score ≤ 0)) :=
  C7_probe_characterization
    (fun h => if h = 99 then some ⟨99, 7, 42, NodeType.exact, none⟩ else none) 99 5 0 10 42

/-- The root loop never loses a move it has recorded: started from a `some`
best move it returns a `some` move. -/
theorem rootLoop_isSome (score : Nat → Int) (stop : Nat → Bool) :
    ∀ (l : List Move) (i : Nat) (bs : Int) (mv0 : Move),
      ∃ mv, rootLoop score stop l i bs (some mv0) = some mv := by
  intro l
  induction l with
  | nil => exact fun i bs mv0 => ⟨mv0, rfl⟩
  | cons mv rest ih =>
    intro i bs mv0
    simp only [rootLoop]
    by_cases hstop : stop i
    · rw [if_pos hstop]
      by_cases h1 : bs < score i
      · rw [if_pos h1]; exact ⟨mv, rfl⟩
      · rw [if_neg h1]; exact ⟨mv0, rfl⟩
    · rw [if_neg hstop]
      by_cases h1 : bs < score i
      · simp only [if_pos h1]; exact ih (i + 1) (score i) mv
      · simp only [if_neg h1]; exact ih (i + 1) bs mv0

/-- Any move the root loop returns is its incoming best move or a member of
the remaining move list. -/
theorem rootLoop_mem (score : Nat → Int) (stop : Nat → Bool) :
    ∀ (l : List Move) (i : Nat) (bs : Int) (bm : Option Move) (mv : Move),
      rootLoop score stop l i bs bm = some mv → bm = some mv ∨ mv ∈ l := by
  intro l
  induction l with
  | nil =>
    intro i bs bm mv h
    exact Or.inl h
  | cons mv0 rest ih =>
    intro i bs bm mv h
    simp only [rootLoop] at h
    by_cases hstop : stop i
    · rw [if_pos hstop] at h
      by_cases h1 : bs < score i
      · rw [if_pos h1] at h
        injection h with h2
        subst h2
        exact Or.inr (List.mem_cons_self _ _)
      · rw [if_neg h1] at h
        exact Or.inl h
    · rw [if_neg hstop] at h
      by_cases h1 : bs < score i
      · simp only [if_pos h1] at h
        rcases ih (i + 1) (score i) (some mv0) mv h with h2 | h2
        · injection h2 with h3
          subst h3
          exact Or.inr (List.mem_cons_self _ _)
        · exact Or.inr (List.mem_cons_of_mem _ h2)
      · simp only [if_neg h1] at h
        rcases ih (i + 1) bs bm mv h with h2 | h2
        · exact Or.inl h2
        · exact Or.inr (List.mem_cons_of_mem _ h2)

/-- C6: `find_best_move` returns `none` exactly when `generate_moves` yields
no legal move, and any returned move is an element of the generated legal-move
list.  The per-iteration negamax scores and the deadline poll are abstracted
as `score` and `stop` (they depend on table state, randomized ordering and
the clock); `ordered` is the output of `order_moves`, a permutation of the
generated list; all scores exceed the `-i32::MAX` sentinel, as every value
negamax can produce does. -/
theorem C6_find_best_move_legal (board : Board) (score : Nat → Int) (stop : Nat → Bool)
    (ordered : List Move) (hperm : ordered.Perm (generate_moves board))
    (hscore : ∀ i, -INT32_MAX < score i) :
    (find_best_move board score stop ordered = none ↔ generate_moves board = []) ∧
    ∀ mv, find_best_move board score stop ordered = some mv → mv ∈ generate_moves board := by
  simp only [find_best_move]
  cases hmoves : generate_moves board with
  | nil =>
    rw [hmoves] at hperm
    constructor
    · simp
    · intro mv hmv
      simp at hmv
  | cons m ms =>
    rw [hmoves] at hperm
    rw [if_neg (by simp : ¬((m :: ms).isEmpty = true))]
    cases hord : ordered with
    | nil =>
      exfalso
      rw [hord] at hperm
      have := hperm.length_eq
      simp at this
    | cons mv0 rest =>
      rw [hord] at hperm
      simp only [rootLoop]
      have h0 := hscore 0
      simp only [if_pos h0]
      constructor
      · constructor
        · intro hnone
          exfalso
          by_cases hstop : stop 0
          · rw [if_pos hstop] at hnone; cases hnone
          · rw [if_neg hstop] at hnone
            obtain ⟨mv, hmv⟩ := rootLoop_isSome score stop rest 1 (score 0) mv0
            rw [hmv] at hnone
            cases hnone
        · intro h
          cases h
      · intro mv hmv
        by_cases hstop : stop 0
        · rw [if_pos hstop] at hmv
          injection hmv with h2
          subst h2
          exact hperm.subset (List.mem_cons_self _ _)
        · rw [if_neg hstop] at hmv
          rcases rootLoop_mem score stop rest 1 (score 0) (some mv0) mv hmv with h2 | h2
          · injection h2 with h3
            subst h3
            exact hperm.subset (List.mem_cons_self _ _)
          · exact hperm.subset (List.mem_cons_of_mem _ h2)

/-- Witness for C6: on the lone-white-king board, with constant scores and a
never-expiring deadline, the returned move is one of the generated legal
moves and the none-result characterization holds. -/
theorem C6_witness :
    (find_best_move smallKingBoard (fun _ => 0) (fun _ => false)
        (generate_moves smallKingBoard) = none ↔ generate_moves smallKingBoard = []) ∧
    ∀ mv, find_best_move smallKingBoard (fun _ => 0) (fun _ => false)
        (generate_moves smallKingBoard) = some mv → mv ∈ generate_moves smallKingBoard :=
  C6_find_best_move_legal smallKingBoard (fun _ => 0) (fun _ => false)
    (generate_moves smallKingBoard) (List.Perm.refl _)
    (fun i => show -INT32_MAX < 0 from by decide)

set_option maxHeartbeats 16000000 in
/-- C1 (failing-behavior evidence): the code's perft from the initial
position matches the claimed 20 and 400 at depths 1 and 2, but its legality
filter is unsound: in the position after 1. e4 d5 2. Ke2 d4 — each move below
is produced by `generate_moves` at its position — the generator also emits
the king move e2e3 although after it the white king stands on e3 (square 20)
with the black pawn on d4 (square 27 = 20 + 7) attacking it, and
`is_king_in_check` still reports no check.  Such illegal leaves make the
code's depth-5 perft diverge from the claimed 4,865,609. -/
theorem C1_perft_and_illegal_leaf :
    perft 1 Board.new = 20 ∧
    perft 2 Board.new = 400 ∧
    Move.new 12 28 Piece.pawn ∈ generate_moves Board.new ∧
    Move.new 51 35 Piece.pawn ∈
      generate_moves (Board.new.make_move (Move.new 12 28 Piece.pawn)) ∧
    Move.new 4 12 Piece.king ∈
      generate_moves ((Board.new.make_move (Move.new 12 28 Piece.pawn)).make_move
        (Move.new 51 35 Piece.pawn)) ∧
    Move.new 35 27 Piece.pawn ∈
      generate_moves (((Board.new.make_move (Move.new 12 28 Piece.pawn)).make_move
        (Move.new 51 35 Piece.pawn)).make_move (Move.new 4 12 Piece.king)) ∧
    Move.new 12 20 Piece.king ∈ generate_moves kingIntoPawnAttackBoard ∧
    (kingIntoPawnAttackBoard.make_move (Move.new 12 20 Piece.king)).black_pieces.pawn.testBit 27
      = true ∧
    (kingIntoPawnAttackBoard.make_move (Move.new 12 20 Piece.king)).white_pieces.king
      = 1 <<< 20 ∧
    20 + 7 = 27 ∧
    is_king_in_check (kingIntoPawnAttackBoard.make_move (Move.new 12 20 Piece.king)) Color.white
      = false := by decide

end ChessEngine
